import Mathlib

/-!
Verification of the calendar task-board engine: date-range utilities,
week segmentation, gesture resolution, filtering, and the task store
reducer, embedded shallowly from the TypeScript source.

A JavaScript `Date` is modelled by its millisecond timestamp (an
integer).  The app performs no timezone arithmetic beyond local
calendar days, so local midnight is modelled as a multiple of
`msPerDay`; the `date-fns` operations used by the source (`startOfDay`,
`endOfDay`, `addDays`, `addWeeks`, `differenceInDays`, `isSameDay`)
become integer arithmetic on timestamps.  `Math.floor` of a quotient is
`Int.ediv` (`/` on `ℤ`), and `differenceInDays`'s truncation toward
zero is `Int.tdiv`.
-/

namespace Calendar

/-- Milliseconds in one day, the constant `1000*60*60*24` used by the source. -/
def msPerDay : Int := 86400000

/-- date-fns `startOfDay`: truncate the timestamp to its day boundary. -/
def startOfDay (t : Int) : Int := msPerDay * (t / msPerDay)

/-- date-fns `endOfDay`: the last millisecond of the day of `t`. -/
def endOfDay (t : Int) : Int := startOfDay t + (msPerDay - 1)

/-- The calendar-day index of a timestamp (floor of `t / msPerDay`). -/
def dayIndex (t : Int) : Int := t / msPerDay

/-- date-fns `addDays` (in the timezone-free model: shift by whole days). -/
def addDays (t : Int) (n : Int) : Int := t + n * msPerDay

/-- date-fns `addWeeks`, defined as adding `7 * w` days. -/
def addWeeks (t : Int) (w : Int) : Int := addDays t (7 * w)

/-- date-fns `differenceInDays`: the number of full 24h periods between two
dates, truncated toward zero (`Int.tdiv` is truncation toward zero). -/
def differenceInDays (a b : Int) : Int := (a - b).tdiv msPerDay

/-- date-fns `isSameDay`. -/
def isSameDay (a b : Int) : Bool := dayIndex a = dayIndex b

/-- The result record of `normalizeDateRange` (`{ start, end }`; the `end`
field is renamed `endD` because `end` is reserved in Lean). -/
structure DateRange where
  start : Int
  endD : Int
  deriving Repr, DecidableEq

/-- `normalizeDateRange` from `src/utils/dateUtils.ts`:
`start = startOfDay(startDate)`, `end = endOfDay(endDate)`, swapped when
`start > end`. -/
def normalizeDateRange (startDate endDate : Int) : DateRange :=
  let start := startOfDay startDate
  let e := endOfDay endDate
  if start ≤ e then { start := start, endD := e } else { start := e, endD := start }

/-- Definition following the spec's words for claim C2: `normalize(a,b)`
returns `(min(a,b), max(a,b))` at day granularity with the time components
stripped from both bounds. -/
def specNormalize (a b : Int) : DateRange :=
  { start := startOfDay (min a b), endD := startOfDay (max a b) }

/- Basic day arithmetic lemmas. -/

theorem msPerDay_ne_zero : msPerDay ≠ 0 := by unfold msPerDay; omega

theorem msPerDay_pos : (0 : Int) < msPerDay := by unfold msPerDay; omega

theorem dayIndex_startOfDay (t : Int) : dayIndex (startOfDay t) = dayIndex t := by
  unfold dayIndex startOfDay
  exact Int.mul_ediv_cancel_left _ msPerDay_ne_zero

theorem startOfDay_le_self (t : Int) : startOfDay t ≤ t := by
  unfold startOfDay
  rw [Int.mul_comm]
  exact Int.ediv_mul_le t msPerDay_ne_zero

theorem startOfDay_eq_mul (t : Int) : startOfDay t = msPerDay * dayIndex t := rfl

theorem dayIndex_mul_self (n : Int) : dayIndex (msPerDay * n) = n := by
  unfold dayIndex
  exact Int.mul_ediv_cancel_left _ msPerDay_ne_zero

theorem dayIndex_le_iff (a b : Int) :
    dayIndex a ≤ dayIndex b ↔ startOfDay a ≤ startOfDay b := by
  unfold dayIndex startOfDay
  constructor
  · intro h
    exact Int.mul_le_mul_of_nonneg_left h (le_of_lt msPerDay_pos)
  · intro h
    exact le_of_mul_le_mul_left h msPerDay_pos

theorem dayIndex_addDays (t : Int) (n : Int) :
    dayIndex (addDays t n) = dayIndex t + n := by
  unfold dayIndex addDays
  exact Int.add_mul_ediv_right t n msPerDay_ne_zero

theorem startOfDay_addDays (t : Int) (n : Int) :
    startOfDay (addDays t n) = startOfDay t + n * msPerDay := by
  unfold startOfDay addDays
  rw [Int.add_mul_ediv_right t n msPerDay_ne_zero, Int.mul_add]
  ring

theorem tdiv_msPerDay_nonneg {x : Int} (h : -msPerDay < x) : 0 ≤ x.tdiv msPerDay := by
  rcases le_or_lt 0 x with hx | hx
  · exact Int.tdiv_nonneg hx (by unfold msPerDay; omega)
  · have h0 : (-x).tdiv msPerDay = 0 :=
      Int.tdiv_eq_zero_of_lt (by omega) (by unfold msPerDay at h ⊢; omega)
    have := Int.neg_tdiv x msPerDay
    omega

theorem tdiv_msPerDay_mul (n : Int) : (n * msPerDay).tdiv msPerDay = n := by
  rw [Int.mul_comm]
  exact Int.mul_tdiv_cancel_left n (by unfold msPerDay; omega)

/- String helpers modelling the JavaScript string operations used by the
source (ASCII data only: task names, search queries). -/

/-- JS `String.prototype.toLowerCase` (ASCII model). -/
def lowerStr (s : String) : String := ⟨s.data.map Char.toLower⟩

/-- JS `String.prototype.trim` (ASCII model): drop whitespace at both ends. -/
def trimStr (s : String) : String :=
  ⟨((s.data.dropWhile Char.isWhitespace).reverse.dropWhile Char.isWhitespace).reverse⟩

/-- Does `needle` occur at the head of `hay`? (helper for `hasSub`). -/
def leadsList : List Char → List Char → Bool
  | [], _ => true
  | _ :: _, [] => false
  | a :: as, b :: bs => a = b && leadsList as bs

/-- JS `String.prototype.includes`, on character lists. -/
def hasSub (hay needle : List Char) : Bool :=
  match hay with
  | [] => needle.isEmpty
  | _ :: rest => leadsList needle hay || hasSub rest needle

/- Data model (`src/types.ts`). -/

/-- `TaskCategory` from `src/types.ts`. -/
inductive TaskCategory where
  | todo
  | inProgress
  | review
  | completed
  deriving Repr, DecidableEq

/-- `Task` from `src/types.ts`. -/
structure Task where
  id : String
  name : String
  category : TaskCategory
  startDate : Int
  endDate : Int
  createdAt : Int
  deriving Repr, DecidableEq

/-- `FilterState` from `src/types.ts` (`duration` is `number | null`). -/
structure FilterState where
  categories : List TaskCategory
  duration : Option Int
  searchQuery : String
  deriving Repr, DecidableEq

/-- `Partial<Task>`: every field optional (used by the modal state). -/
structure PartialTask where
  id : Option String := none
  name : Option String := none
  category : Option TaskCategory := none
  startDate : Option Int := none
  endDate : Option Int := none
  createdAt : Option Int := none
  deriving Repr, DecidableEq

/-- Modal mode `'create' | 'edit'`. -/
inductive ModalMode where
  | create
  | edit
  deriving Repr, DecidableEq

/-- `TaskModalState` from `src/types.ts`. -/
structure TaskModalState where
  isOpen : Bool
  task : Option PartialTask
  mode : ModalMode
  deriving Repr, DecidableEq

/-- `DragSelection` from `src/types.ts`. -/
structure DragSelection where
  startDate : Option Int
  endDate : Option Int
  isSelecting : Bool
  deriving Repr, DecidableEq

/-- `CalendarState` from `src/context/CalendarContext.tsx`. -/
structure CalendarState where
  tasks : List Task
  filters : FilterState
  modal : TaskModalState
  dragSelection : DragSelection
  currentMonth : Int
  deriving Repr, DecidableEq

/- Remaining date utilities (`src/utils/dateUtils.ts`). -/

/-- `getWeeksFromToday` from `src/utils/dateUtils.ts`.  The impure
`new Date()` call is threaded in as the `now` argument; note the source
does NOT truncate `today` to a day boundary. -/
def getWeeksFromToday (now : Int) (weeks : Int) : DateRange :=
  let today := now
  let futureDate := addWeeks today weeks
  { start := today, endD := futureDate }

/-- `isDateInRange` from `src/utils/dateUtils.ts` (`isWithinInterval` is
inclusive on both bounds). -/
def isDateInRange (date startDate endDate : Int) : Bool :=
  let r := normalizeDateRange startDate endDate
  decide (r.start ≤ date ∧ date ≤ r.endD)

/- Task filtering (`src/utils/taskUtils.ts`, `filterTasks`). -/

/-- The search clause of `filterTasks`: an empty query passes every task,
otherwise a case-insensitive substring match against the name. -/
def searchPasses (filters : FilterState) (task : Task) : Bool :=
  if !(filters.searchQuery == "") &&
      !(hasSub (lowerStr task.name).data (lowerStr filters.searchQuery).data) then
    false
  else
    true

/-- The predicate applied by `filterTasks` to each task: category clause,
then duration clause (overlap with `getWeeksFromToday`), then search clause,
each returning `false` early exactly as the source does. -/
def taskPassesFilters (now : Int) (filters : FilterState) (task : Task) : Bool :=
  if decide (0 < filters.categories.length) && !(filters.categories.contains task.category) then
    false
  else
    match filters.duration with
    | some d =>
      let w := getWeeksFromToday now d
      let taskOverlaps := !(decide (task.endDate < w.start) || decide (task.startDate > w.endD))
      if !taskOverlaps then false else searchPasses filters task
    | none => searchPasses filters task

/-- `filterTasks` from `src/utils/taskUtils.ts`, with `new Date()` threaded
in as `now`. -/
def filterTasks (now : Int) (tasks : List Task) (filters : FilterState) : List Task :=
  tasks.filter (taskPassesFilters now filters)

/- Week segmentation (`src/utils/taskUtils.ts`, `getTaskDisplayInfo`, and
`src/components/TaskBar.tsx`, `getTaskMetrics`). -/

/-- The record returned by `getTaskDisplayInfo`. -/
structure DisplayInfo where
  isFirstDay : Bool
  isLastDay : Bool
  isFirstInWeek : Bool
  isLastInWeek : Bool
  width : ℚ
  left : ℚ
  dayOfWeek : Int
  taskStartDayOfWeek : Int
  taskEndDayOfWeek : Int
  showTaskName : Bool
  deriving Repr, DecidableEq

/-- `getTaskDisplayInfo` from `src/utils/taskUtils.ts`.  Percentage widths
are modelled in `ℚ`; `Math.floor` of a millisecond quotient is `Int.ediv`. -/
def getTaskDisplayInfo (task : Task) (dayDate weekStartDate : Int) : Option DisplayInfo :=
  let taskStart := startOfDay task.startDate
  let taskEnd := startOfDay task.endDate
  let currentDay := startOfDay dayDate
  let weekStart := startOfDay weekStartDate
  if ¬ (taskStart ≤ currentDay ∧ currentDay ≤ taskEnd) then
    none
  else
    let dayOfWeek := (currentDay - weekStart) / msPerDay
    let taskStartDayOfWeek := max 0 ((taskStart - weekStart) / msPerDay)
    let taskEndDayOfWeek := min 6 ((taskEnd - weekStart) / msPerDay)
    let width : ℚ := ((taskEndDayOfWeek - taskStartDayOfWeek + 1 : Int) : ℚ) / 7 * 100
    let left : ℚ := ((taskStartDayOfWeek : Int) : ℚ) / 7 * 100
    some {
      isFirstDay := isSameDay currentDay taskStart,
      isLastDay := isSameDay currentDay taskEnd,
      isFirstInWeek := decide (dayOfWeek = taskStartDayOfWeek),
      isLastInWeek := decide (dayOfWeek = taskEndDayOfWeek),
      width := width,
      left := left,
      dayOfWeek := dayOfWeek,
      taskStartDayOfWeek := taskStartDayOfWeek,
      taskEndDayOfWeek := taskEndDayOfWeek,
      showTaskName := decide (dayOfWeek = taskStartDayOfWeek) || isSameDay currentDay taskStart }

/-- The width/left pair produced by `getTaskMetrics` in
`src/components/TaskBar.tsx` (percentages, in `ℚ`). -/
structure TaskMetrics where
  width : ℚ
  left : ℚ
  deriving Repr, DecidableEq

/-- `getTaskMetrics` from `src/components/TaskBar.tsx` (the `isFirstDay`
branch, outside a resize, so the display dates are the task's dates). -/
def getTaskMetrics (task : Task) (weekStartDate : Int) : TaskMetrics :=
  let taskStartDate := startOfDay task.startDate
  let taskEndDate := startOfDay task.endDate
  let weekStart := startOfDay weekStartDate
  let weekEnd := startOfDay (addDays weekStartDate 6)
  let visibleStart := if taskStartDate < weekStart then weekStart else taskStartDate
  let visibleEnd := if weekEnd < taskEndDate then weekEnd else taskEndDate
  let startDayIndex := (visibleStart - weekStart) / msPerDay
  let endDayIndex := (visibleEnd - weekStart) / msPerDay
  let left : ℚ := ((startDayIndex : Int) : ℚ) / 7 * 100
  let width : ℚ := ((endDayIndex - startDayIndex + 1 : Int) : ℚ) / 7 * 100
  { width := max width (1428 / 100), left := max 0 (min left (8572 / 100)) }

/- Gesture resolution. -/

/-- The move gesture, `handleDndDragEnd` in `src/components/CalendarGrid.tsx`:
drop an existing task onto the day `newStartDate`. -/
def moveTask (task : Task) (newStartDate : Int) : Task :=
  let duration := differenceInDays task.endDate task.startDate
  { task with
      startDate := startOfDay newStartDate,
      endDate := startOfDay (addDays newStartDate duration) }

/-- Which edge a resize gesture drags. -/
inductive ResizeEdge where
  | startEdge
  | endEdge
  deriving Repr, DecidableEq

/-- One step of `handleResizeMove` in `src/components/TaskBar.tsx`: from the
task's committed dates and the day cell under the pointer, the candidate
`(newStartDate, newEndDate)` pair. -/
def handleResizeMove (task : Task) (mode : ResizeEdge) (targetDate : Int) :
    Int × Int :=
  match mode with
  | .startEdge =>
    let newStartDate := startOfDay targetDate
    let newEndDate := task.endDate
    if newEndDate ≤ newStartDate then (addDays newEndDate (-1), newEndDate)
    else (newStartDate, newEndDate)
  | .endEdge =>
    let newStartDate := task.startDate
    let newEndDate := startOfDay targetDate
    if newEndDate ≤ newStartDate then (newStartDate, addDays newStartDate 1)
    else (newStartDate, newEndDate)

/-- The task committed by `handleResizeEnd` after a resize step over
`targetDate` (the source dispatches `UPDATE_TASK` with the temp dates). -/
def resizeTask (task : Task) (mode : ResizeEdge) (targetDate : Int) : Task :=
  let p := handleResizeMove task mode targetDate
  { task with startDate := p.1, endDate := p.2 }

/-- The normalized range `handleDragEnd` in `src/components/CalendarGrid.tsx`
prefills into the creation modal: swap when inverted, then snap both bounds
to local midnight. -/
def dragCreateRange (selStart selEnd : Int) : Int × Int :=
  let p := if selEnd < selStart then (selEnd, selStart) else (selStart, selEnd)
  (startOfDay p.1, startOfDay p.2)

/- The task modal (`src/components/TaskModal.tsx`). -/

/-- The modal's form fields.  A date input parses to a day-aligned timestamp
when non-empty; an empty field is `none`. -/
structure TaskFormData where
  name : String
  category : TaskCategory
  startDate : Option Int
  endDate : Option Int
  deriving Repr, DecidableEq

/-- `handleSubmit` in create mode: the `ADD_TASK` payload, or `none` when the
trimmed name is empty (the source returns without dispatching).  Each date
falls back to the modal prefill, then to `new Date()` (`now`). -/
def handleSubmitCreate (form : TaskFormData) (prefill : Option PartialTask)
    (now : Int) (newId : String) : Option Task :=
  if trimStr form.name == "" then none
  else
    some {
      id := newId,
      name := trimStr form.name,
      category := form.category,
      startDate := form.startDate.getD ((prefill.bind PartialTask.startDate).getD now),
      endDate := form.endDate.getD ((prefill.bind PartialTask.endDate).getD now),
      createdAt := now }

/-- `handleSubmit` in edit mode (the modal task is the full task placed there
by the task bar's click handler): the `UPDATE_TASK` payload, or `none` when
the trimmed name is empty. -/
def handleSubmitEdit (form : TaskFormData) (task : Task) : Option Task :=
  if trimStr form.name == "" then none
  else
    some { task with
      name := trimStr form.name,
      category := form.category,
      startDate := form.startDate.getD task.startDate,
      endDate := form.endDate.getD task.endDate }

/- The task store reducer (`src/context/CalendarContext.tsx`). -/

/-- `Partial<FilterState>`. -/
structure PartialFilterState where
  categories : Option (List TaskCategory) := none
  duration : Option (Option Int) := none
  searchQuery : Option String := none
  deriving Repr, DecidableEq

/-- Spread-merge `{ ...state.filters, ...payload }`. -/
def FilterState.merge (f : FilterState) (p : PartialFilterState) : FilterState :=
  { categories := p.categories.getD f.categories,
    duration := p.duration.getD f.duration,
    searchQuery := p.searchQuery.getD f.searchQuery }

/-- `Partial<TaskModalState>`. -/
structure PartialModalState where
  isOpen : Option Bool := none
  task : Option (Option PartialTask) := none
  mode : Option ModalMode := none
  deriving Repr, DecidableEq

/-- Spread-merge `{ ...state.modal, ...payload }`. -/
def TaskModalState.merge (m : TaskModalState) (p : PartialModalState) : TaskModalState :=
  { isOpen := p.isOpen.getD m.isOpen,
    task := p.task.getD m.task,
    mode := p.mode.getD m.mode }

/-- `Partial<DragSelection>`. -/
structure PartialDragSelection where
  startDate : Option (Option Int) := none
  endDate : Option (Option Int) := none
  isSelecting : Option Bool := none
  deriving Repr, DecidableEq

/-- Spread-merge `{ ...state.dragSelection, ...payload }`. -/
def DragSelection.merge (d : DragSelection) (p : PartialDragSelection) : DragSelection :=
  { startDate := p.startDate.getD d.startDate,
    endDate := p.endDate.getD d.endDate,
    isSelecting := p.isSelecting.getD d.isSelecting }

/-- `CalendarAction` from `src/context/CalendarContext.tsx`. -/
inductive CalendarAction where
  | addTask (payload : Task)
  | updateTask (payload : Task)
  | deleteTask (payload : String)
  | setFilters (payload : PartialFilterState)
  | setModal (payload : PartialModalState)
  | setDragSelection (payload : PartialDragSelection)
  | setCurrentMonth (payload : Int)
  | loadState (payload : CalendarState)
  deriving Repr

/-- `calendarReducer` from `src/context/CalendarContext.tsx`. -/
def calendarReducer (state : CalendarState) (action : CalendarAction) : CalendarState :=
  match action with
  | .addTask payload =>
      { state with tasks := state.tasks ++ [payload] }
  | .updateTask payload =>
      { state with tasks := state.tasks.map fun existingTask =>
          if existingTask.id = payload.id then payload else existingTask }
  | .deleteTask payload =>
      { state with tasks := state.tasks.filter fun task => task.id ≠ payload }
  | .setFilters payload =>
      { state with filters := state.filters.merge payload }
  | .setModal payload =>
      { state with modal := state.modal.merge payload }
  | .setDragSelection payload =>
      { state with dragSelection := state.dragSelection.merge payload }
  | .setCurrentMonth payload =>
      { state with currentMonth := payload }
  | .loadState payload => payload

/- Further day arithmetic helper lemmas. -/

theorem dayIndex_endOfDay (t : Int) : dayIndex (endOfDay t) = dayIndex t := by
  unfold dayIndex endOfDay startOfDay
  have h : msPerDay * (t / msPerDay) + (msPerDay - 1) =
      (msPerDay - 1) + (t / msPerDay) * msPerDay := by ring
  rw [h, Int.add_mul_ediv_right _ _ msPerDay_ne_zero]
  have h0 : (msPerDay - 1) / msPerDay = 0 := by unfold msPerDay; decide
  omega

theorem startOfDay_le_endOfDay_iff (a b : Int) :
    startOfDay a ≤ endOfDay b ↔ dayIndex a ≤ dayIndex b := by
  unfold endOfDay startOfDay dayIndex msPerDay
  omega

/-- Day-level characterization of `normalizeDateRange`: the bounds are
ordered and their day indices are the min and max of the inputs' days. -/
theorem normalizeDateRange_day_char (a b : Int) :
    (normalizeDateRange a b).start ≤ (normalizeDateRange a b).endD ∧
    dayIndex (normalizeDateRange a b).start = min (dayIndex a) (dayIndex b) ∧
    dayIndex (normalizeDateRange a b).endD = max (dayIndex a) (dayIndex b) := by
  unfold normalizeDateRange
  by_cases h : startOfDay a ≤ endOfDay b
  · rw [if_pos h]
    have hd : dayIndex a ≤ dayIndex b := (startOfDay_le_endOfDay_iff a b).mp h
    refine ⟨h, ?_, ?_⟩
    · rw [dayIndex_startOfDay]; omega
    · rw [dayIndex_endOfDay]; omega
  · rw [if_neg h]
    have hd : ¬ dayIndex a ≤ dayIndex b := fun hc => h ((startOfDay_le_endOfDay_iff a b).mpr hc)
    refine ⟨le_of_not_le h, ?_, ?_⟩
    · rw [dayIndex_endOfDay]; omega
    · rw [dayIndex_startOfDay]; omega

/-- Claim C2 (corrected): the claim as stated is false.  At `a = 0` (midnight
of day 0) and `b = msPerDay` (midnight of day 1), `normalizeDateRange` does
not return the pair with time components stripped from both bounds (its end
bound is the last millisecond of day 1, not midnight), and it is not
symmetric in its arguments as an exact pair of timestamps. -/
theorem C2_normalize_counterexample :
    normalizeDateRange 0 msPerDay ≠ specNormalize 0 msPerDay ∧
    normalizeDateRange 0 msPerDay ≠ normalizeDateRange msPerDay 0 := by
  constructor <;> decide

/-- Claim C2 as amended: `normalizeDateRange a b` always returns a pair with
`start ≤ end`; at day granularity the pair is `(min(a,b), max(a,b))` and the
operation is symmetric in its arguments, but as exact timestamps the start
bound is a midnight while the end bound is the last millisecond of its day,
and the exact pairs `normalize(a,b)` and `normalize(b,a)` differ. -/
theorem C2_normalize_day_granularity (a b : Int) :
    (normalizeDateRange a b).start ≤ (normalizeDateRange a b).endD ∧
    dayIndex (normalizeDateRange a b).start = min (dayIndex a) (dayIndex b) ∧
    dayIndex (normalizeDateRange a b).endD = max (dayIndex a) (dayIndex b) ∧
    dayIndex (normalizeDateRange a b).start = dayIndex (normalizeDateRange b a).start ∧
    dayIndex (normalizeDateRange a b).endD = dayIndex (normalizeDateRange b a).endD := by
  obtain ⟨h1, h2, h3⟩ := normalizeDateRange_day_char a b
  obtain ⟨h1', h2', h3'⟩ := normalizeDateRange_day_char b a
  refine ⟨h1, h2, h3, ?_, ?_⟩ <;> omega

/-- Definition following the spec's words for claim C8: `rollingWindow`
returns `(today, today + weeksAhead*7 days)` with `today` truncated to day
granularity. -/
def specRollingWindow (now : Int) (weeks : Int) : DateRange :=
  { start := startOfDay now, endD := addDays (startOfDay now) (7 * weeks) }

/-- Claim C8 (corrected): the claim as stated is false.  With the clock at
one millisecond past midnight (`now = 1`) and `weeksAhead = 1`, the window
returned by `getWeeksFromToday` starts at `now` itself, not at `now`
truncated to day granularity: the source never calls `startOfDay` on
`today`. -/
theorem C8_rollingWindow_counterexample :
    getWeeksFromToday 1 1 ≠ specRollingWindow 1 1 ∧
    (getWeeksFromToday 1 1).start ≠ startOfDay 1 := by
  constructor <;> decide

/-- Claim C8 as amended: for every positive `weeksAhead`,
`getWeeksFromToday` returns the pair `(now, now + weeksAhead*7 days)` where
`now` keeps its time-of-day component (no truncation); at day granularity
the window still runs from today to `7*weeksAhead` days later. -/
theorem C8_rollingWindow_untruncated (now weeks : Int) (hw : 0 < weeks) :
    (getWeeksFromToday now weeks).start = now ∧
    (getWeeksFromToday now weeks).endD = now + 7 * weeks * msPerDay ∧
    dayIndex (getWeeksFromToday now weeks).start = dayIndex now ∧
    dayIndex (getWeeksFromToday now weeks).endD = dayIndex now + 7 * weeks ∧
    (getWeeksFromToday now weeks).start < (getWeeksFromToday now weeks).endD := by
  unfold getWeeksFromToday addWeeks
  refine ⟨rfl, rfl, rfl, dayIndex_addDays now (7 * weeks), ?_⟩
  have := msPerDay_pos
  simp only [addDays]
  nlinarith

/-- Witness for `C8_rollingWindow_untruncated` at `now = 1`, `weeks = 1`. -/
theorem C8_rollingWindow_untruncated_witness :
    (getWeeksFromToday 1 1).start = 1 ∧
    (getWeeksFromToday 1 1).endD = 1 + 7 * 1 * msPerDay ∧
    dayIndex (getWeeksFromToday 1 1).start = dayIndex 1 ∧
    dayIndex (getWeeksFromToday 1 1).endD = dayIndex 1 + 7 * 1 ∧
    (getWeeksFromToday 1 1).start < (getWeeksFromToday 1 1).endD :=
  C8_rollingWindow_untruncated 1 1 (by decide)

/-- The overlap predicate in claim C7's words: the task's range overlaps the
window, compared at day granularity. -/
def specDayOverlap (task : Task) (win : DateRange) : Prop :=
  ¬ (dayIndex task.endDate < dayIndex win.start ∨ dayIndex task.startDate > dayIndex win.endD)

/-- A sample task spanning day 8 to day 10 at midnight, used in the C7
counterexample. -/
def sampleTaskC7 : Task :=
  { id := "1", name := "a", category := .todo,
    startDate := 8 * msPerDay, endDate := 10 * msPerDay, createdAt := 0 }

/-- The neutral-except-duration filter state used in the C7 counterexample. -/
def sampleFiltersC7 : FilterState :=
  { categories := [], duration := some 1, searchQuery := "" }

/-- Claim C7 (corrected): the claim as stated is false.  With the clock one
hour past midnight of day 10 and a task ending at midnight of day 10, the
task's range touches the window boundary at day granularity (so the claim
says it is kept), but the source compares raw millisecond timestamps
(`taskEnd < start` with the un-truncated `now`), so the task is dropped. -/
theorem C7_filter_counterexample :
    specDayOverlap sampleTaskC7 (getWeeksFromToday (10 * msPerDay + 3600000) 1) ∧
    filterTasks (10 * msPerDay + 3600000) [sampleTaskC7] sampleFiltersC7 = [] := by
  refine ⟨?_, ?_⟩
  · unfold specDayOverlap
    decide
  · decide

/-- Claim C7 as amended: with the category and search clauses neutral and a
non-null duration `d`, `filterTasks` keeps a task iff its range overlaps the
window `(now, now + 7*d days)` compared as raw millisecond timestamps
(`not (end < winStart or start > winEnd)` with `winStart` the un-truncated
clock reading); exact timestamp equality with a boundary is kept, and a
zero-length task is treated by the same formula as any other. -/
theorem C7_filter_overlap_timestamps (now d : Int) (tasks : List Task) (task : Task) :
    task ∈ filterTasks now tasks { categories := [], duration := some d, searchQuery := "" } ↔
      task ∈ tasks ∧ ¬ (task.endDate < now ∨ task.startDate > now + 7 * d * msPerDay) := by
  have hpred : ∀ t : Task,
      taskPassesFilters now { categories := [], duration := some d, searchQuery := "" } t =
        !(decide (t.endDate < now) || decide (t.startDate > now + 7 * d * msPerDay)) := by
    intro t
    simp [taskPassesFilters, searchPasses, getWeeksFromToday, addWeeks, addDays]
  unfold filterTasks
  rw [List.mem_filter, hpred]
  simp [not_or]

theorem dayIndex_lt_iff (a b : Int) :
    dayIndex a < dayIndex b ↔ startOfDay a < startOfDay b := by
  rw [Int.lt_iff_le_not_le, Int.lt_iff_le_not_le, dayIndex_le_iff, dayIndex_le_iff]

theorem startOfDay_sub_ediv (a b : Int) :
    (startOfDay a - startOfDay b) / msPerDay = dayIndex a - dayIndex b := by
  unfold startOfDay dayIndex
  rw [← Int.mul_sub, Int.mul_ediv_cancel_left _ msPerDay_ne_zero]

/-- The intersection predicate in claim C3's words: the task's normalized
range intersects the 7-day window `[weekStart, weekStart+6]` at day
granularity. -/
def specTaskWeekIntersect (task : Task) (weekStart : Int) : Prop :=
  min (dayIndex task.startDate) (dayIndex task.endDate) ≤ dayIndex weekStart + 6 ∧
  dayIndex weekStart ≤ max (dayIndex task.startDate) (dayIndex task.endDate)

/-- A sample task spanning day 10 to day 12 at midnight, used in the C3
counterexample. -/
def sampleTaskC3 : Task :=
  { id := "1", name := "a", category := .todo,
    startDate := 10 * msPerDay, endDate := 12 * msPerDay, createdAt := 0 }

/-- Claim C3 (corrected): the claim as stated is false.  For the task
spanning days 10..12, the week starting at day 0 and the day argument day
10, the task's range does not intersect `[weekStart, weekStart+6] = [0, 6]`,
yet `getTaskDisplayInfo` returns a segment: its `none` test only asks
whether the day argument lies inside the task's range, never whether the
task intersects the week. -/
theorem C3_segment_counterexample :
    ¬ specTaskWeekIntersect sampleTaskC3 0 ∧
    (getTaskDisplayInfo sampleTaskC3 (10 * msPerDay) 0).isSome = true := by
  refine ⟨?_, ?_⟩
  · unfold specTaskWeekIntersect
    decide
  · decide

/-- Claim C3 as amended: `getTaskDisplayInfo task dayDate weekStart` returns
`none` iff the supplied `dayDate` does not lie between the task's start and
end at day granularity; the week start plays no part in the `none` decision
and an inverted range is not normalized first (it makes every day fail the
test). -/
theorem C3_segment_none_iff (task : Task) (dayDate weekStartDate : Int) :
    getTaskDisplayInfo task dayDate weekStartDate = none ↔
      ¬ (dayIndex task.startDate ≤ dayIndex dayDate ∧
         dayIndex dayDate ≤ dayIndex task.endDate) := by
  unfold getTaskDisplayInfo
  dsimp only
  split_ifs with h
  · refine iff_of_false (by simp) ?_
    exact not_not_intro ⟨(dayIndex_le_iff _ _).mpr h.1, (dayIndex_le_iff _ _).mpr h.2⟩
  · refine iff_of_true rfl ?_
    intro hcon
    exact h ⟨(dayIndex_le_iff _ _).mp hcon.1, (dayIndex_le_iff _ _).mp hcon.2⟩

/-- Bounds for the clamped width/left percentages of `getTaskMetrics`, for
day indices `0 ≤ s ≤ e ≤ 6` within the week: the clamps `max _ 14.28` and
`max 0 (min _ 85.72)` are inactive and the stated interval bounds hold. -/
theorem metricsBounds (s e : ℚ) (h0 : 0 ≤ s) (hse : s ≤ e) (h6 : e ≤ 6) :
    (100 : ℚ) / 7 ≤ max ((e - s + 1) / 7 * 100) (1428 / 100) ∧
    max ((e - s + 1) / 7 * 100) (1428 / 100) ≤ 100 ∧
    (0 : ℚ) ≤ max 0 (min (s / 7 * 100) (8572 / 100)) ∧
    max 0 (min (s / 7 * 100) (8572 / 100)) + max ((e - s + 1) / 7 * 100) (1428 / 100) ≤ 100 := by
  have hw : max ((e - s + 1) / 7 * 100) (1428 / 100) = (e - s + 1) / 7 * 100 :=
    max_eq_left (by linarith)
  have hl1 : min (s / 7 * 100) (8572 / 100) = s / 7 * 100 := min_eq_left (by linarith)
  rw [hw, hl1, max_eq_right (by linarith : (0 : ℚ) ≤ s / 7 * 100)]
  refine ⟨by linarith, by linarith, by linarith, by linarith⟩

/-- Claim C4 (confirmed): whenever a segment is produced for a day that lies
in the week row being laid out (the only way the components call the
segmentation: `CalendarDay` passes `weekStartDate = startOfWeek(day.date)`),
its width percentage lies in `[100/7, 100]` and `left + width ≤ 100`; and
the live `getTaskMetrics` path satisfies the same bounds for every task
whose ordered range meets the week. -/
theorem C4_segment_width_bounds :
    (∀ (task : Task) (dayDate weekStartDate : Int) (info : DisplayInfo),
      dayIndex weekStartDate ≤ dayIndex dayDate →
      dayIndex dayDate ≤ dayIndex weekStartDate + 6 →
      getTaskDisplayInfo task dayDate weekStartDate = some info →
      (100 : ℚ) / 7 ≤ info.width ∧ info.width ≤ 100 ∧
      0 ≤ info.left ∧ info.left + info.width ≤ 100) ∧
    (∀ (task : Task) (weekStartDate : Int),
      dayIndex task.startDate ≤ dayIndex task.endDate →
      dayIndex task.startDate ≤ dayIndex weekStartDate + 6 →
      dayIndex weekStartDate ≤ dayIndex task.endDate →
      (100 : ℚ) / 7 ≤ (getTaskMetrics task weekStartDate).width ∧
      (getTaskMetrics task weekStartDate).width ≤ 100 ∧
      0 ≤ (getTaskMetrics task weekStartDate).left ∧
      (getTaskMetrics task weekStartDate).left + (getTaskMetrics task weekStartDate).width ≤ 100) := by
  constructor
  · intro task dayDate weekStartDate info h1 h2 hsome
    unfold getTaskDisplayInfo at hsome
    dsimp only at hsome
    split_ifs at hsome with hc
    · obtain ⟨ha, hb⟩ := hc
      have hts : dayIndex task.startDate ≤ dayIndex dayDate := (dayIndex_le_iff _ _).mpr ha
      have hte : dayIndex dayDate ≤ dayIndex task.endDate := (dayIndex_le_iff _ _).mpr hb
      have heq := (Option.some.inj hsome).symm
      subst heq
      dsimp only
      simp only [startOfDay_sub_ediv]
      set ds := dayIndex task.startDate with hds
      set de := dayIndex task.endDate with hde
      set dw := dayIndex weekStartDate with hdw
      set dd := dayIndex dayDate with hdd
      set sI : Int := max 0 (ds - dw) with hsI
      set eI : Int := min 6 (de - dw) with heI
      have hker : 0 ≤ sI ∧ sI ≤ eI ∧ eI ≤ 6 := by
        refine ⟨?_, ?_, ?_⟩ <;> omega
      have hq1 : (0 : ℚ) ≤ (sI : ℚ) := by exact_mod_cast hker.1
      have hq2 : (sI : ℚ) ≤ (eI : ℚ) := by exact_mod_cast hker.2.1
      have hq3 : (eI : ℚ) ≤ 6 := by exact_mod_cast hker.2.2
      refine ⟨?_, ?_, ?_, ?_⟩ <;> push_cast <;> linarith
  · intro task weekStartDate h0 h1 h2
    unfold getTaskMetrics
    dsimp only
    have hwk : dayIndex (addDays weekStartDate 6) = dayIndex weekStartDate + 6 :=
      dayIndex_addDays _ _
    set ds := dayIndex task.startDate with hds
    set de := dayIndex task.endDate with hde
    set dw := dayIndex weekStartDate with hdw
    by_cases hA : startOfDay task.startDate < startOfDay weekStartDate <;>
      by_cases hB : startOfDay (addDays weekStartDate 6) < startOfDay task.endDate
    · have hB' : dw + 6 < de := by
        have := (dayIndex_lt_iff (addDays weekStartDate 6) task.endDate).mpr hB
        omega
      rw [if_pos hA, if_pos hB]
      simp only [sub_self, Int.zero_ediv, startOfDay_sub_ediv, hwk]
      have hc : ((dw + 6 - dw - 0 + 1 : Int) : ℚ) / 7 * 100 =
          (((6 : Int) : ℚ) - ((0 : Int) : ℚ) + 1) / 7 * 100 := by push_cast; ring_nf
      rw [hc]
      have hc2 : ((0 : Int) : ℚ) / 7 * 100 = (((0 : Int) : ℚ)) / 7 * 100 := rfl
      exact metricsBounds ((0 : Int) : ℚ) ((6 : Int) : ℚ) (by norm_num) (by norm_num) (by norm_num)
    · have hA' : ds < dw := (dayIndex_lt_iff _ _).mpr hA
      have hB' : de ≤ dw + 6 := by
        have hx : ¬ dayIndex (addDays weekStartDate 6) < dayIndex task.endDate := by
          intro hcon
          exact hB ((dayIndex_lt_iff _ _).mp hcon)
        omega
      rw [if_pos hA, if_neg hB]
      simp only [sub_self, Int.zero_ediv, startOfDay_sub_ediv, hwk]
      have hc : ((de - dw - 0 + 1 : Int) : ℚ) / 7 * 100 =
          (((de - dw : Int) : ℚ) - ((0 : Int) : ℚ) + 1) / 7 * 100 := by push_cast; ring_nf
      rw [hc]
      exact metricsBounds ((0 : Int) : ℚ) ((de - dw : Int) : ℚ) (by norm_num)
        (by exact_mod_cast (by omega : (0 : Int) ≤ de - dw))
        (by exact_mod_cast (by omega : (de - dw : Int) ≤ 6))
    · have hA' : dw ≤ ds := by
        have hx : ¬ dayIndex task.startDate < dayIndex weekStartDate := by
          intro hcon
          exact hA ((dayIndex_lt_iff _ _).mp hcon)
        omega
      have hB' : dw + 6 < de := by
        have := (dayIndex_lt_iff (addDays weekStartDate 6) task.endDate).mpr hB
        omega
      rw [if_neg hA, if_pos hB]
      simp only [startOfDay_sub_ediv, hwk]
      have hc : ((dw + 6 - dw - (ds - dw) + 1 : Int) : ℚ) / 7 * 100 =
          (((6 : Int) : ℚ) - ((ds - dw : Int) : ℚ) + 1) / 7 * 100 := by push_cast; ring_nf
      rw [hc]
      exact metricsBounds ((ds - dw : Int) : ℚ) ((6 : Int) : ℚ)
        (by exact_mod_cast (by omega : (0 : Int) ≤ ds - dw))
        (by exact_mod_cast (by omega : (ds - dw : Int) ≤ 6))
        (by norm_num)
    · have hA' : dw ≤ ds := by
        have hx : ¬ dayIndex task.startDate < dayIndex weekStartDate := by
          intro hcon
          exact hA ((dayIndex_lt_iff _ _).mp hcon)
        omega
      have hB' : de ≤ dw + 6 := by
        have hx : ¬ dayIndex (addDays weekStartDate 6) < dayIndex task.endDate := by
          intro hcon
          exact hB ((dayIndex_lt_iff _ _).mp hcon)
        omega
      rw [if_neg hA, if_neg hB]
      simp only [startOfDay_sub_ediv]
      have hc : ((de - dw - (ds - dw) + 1 : Int) : ℚ) / 7 * 100 =
          (((de - dw : Int) : ℚ) - ((ds - dw : Int) : ℚ) + 1) / 7 * 100 := by push_cast; ring_nf
      rw [hc]
      exact metricsBounds ((ds - dw : Int) : ℚ) ((de - dw : Int) : ℚ)
        (by exact_mod_cast (by omega : (0 : Int) ≤ ds - dw))
        (by exact_mod_cast (by omega : (ds - dw : Int) ≤ de - dw))
        (by exact_mod_cast (by omega : (de - dw : Int) ≤ 6))

/-- The sample segment used in the C4 witness: task days 1..3, week starting
at day 0, day argument day 1. -/
def sampleTaskC4 : Task :=
  { id := "1", name := "a", category := .todo,
    startDate := 1 * msPerDay, endDate := 3 * msPerDay, createdAt := 0 }

/-- The display record `getTaskDisplayInfo` produces for `sampleTaskC4` at
day 1 in the week starting at day 0. -/
def sampleInfoC4 : DisplayInfo :=
  { isFirstDay := true, isLastDay := false, isFirstInWeek := true,
    isLastInWeek := false, width := ((3 : Int) : ℚ) / 7 * 100,
    left := ((1 : Int) : ℚ) / 7 * 100,
    dayOfWeek := 1, taskStartDayOfWeek := 1, taskEndDayOfWeek := 3,
    showTaskName := true }

/-- Witness for `C4_segment_width_bounds` at the concrete segment of
`sampleTaskC4`. -/
theorem C4_segment_width_bounds_witness :
    ((100 : ℚ) / 7 ≤ sampleInfoC4.width ∧ sampleInfoC4.width ≤ 100 ∧
      0 ≤ sampleInfoC4.left ∧ sampleInfoC4.left + sampleInfoC4.width ≤ 100) ∧
    ((100 : ℚ) / 7 ≤ (getTaskMetrics sampleTaskC4 0).width ∧
      (getTaskMetrics sampleTaskC4 0).width ≤ 100 ∧
      0 ≤ (getTaskMetrics sampleTaskC4 0).left ∧
      (getTaskMetrics sampleTaskC4 0).left + (getTaskMetrics sampleTaskC4 0).width ≤ 100) :=
  ⟨C4_segment_width_bounds.1 sampleTaskC4 (1 * msPerDay) 0 sampleInfoC4
      (by decide) (by decide)
      (by unfold getTaskDisplayInfo sampleTaskC4 sampleInfoC4
          norm_num [startOfDay, dayIndex, msPerDay, isSameDay]),
    C4_segment_width_bounds.2 sampleTaskC4 0 (by decide) (by decide) (by decide)⟩

/-- The sample task for the C5 counterexample: it starts at 10:00 of day 0
and ends at 09:00 of day 2, so its end carries an earlier time-of-day than
its start. -/
def sampleTaskC5 : Task :=
  { id := "1", name := "a", category := .todo,
    startDate := 36000000, endDate := 2 * msPerDay + 32400000, createdAt := 0 }

/-- Claim C5 (corrected): the claim as stated is false.  Dropping
`sampleTaskC5` on day 5 gives the day displacement `daysDelta = 5`, but the
committed end lands on day 6 rather than day `2 + 5 = 7`, and the task's
day-granularity duration shrinks from 2 days to 1: `differenceInDays`
truncates the 47-hour span toward zero before re-adding it. -/
theorem C5_move_counterexample :
    dayIndex (moveTask sampleTaskC5 (5 * msPerDay)).endDate ≠
      dayIndex sampleTaskC5.endDate +
        (dayIndex (5 * msPerDay) - dayIndex sampleTaskC5.startDate) ∧
    dayIndex (moveTask sampleTaskC5 (5 * msPerDay)).endDate -
        dayIndex (moveTask sampleTaskC5 (5 * msPerDay)).startDate ≠
      dayIndex sampleTaskC5.endDate - dayIndex sampleTaskC5.startDate := by
  constructor <;> decide

/-- Claim C5 as amended: for a task whose dates are day-aligned (as every
gesture-produced date is), the move gesture shifts both bounds by the day
displacement `daysDelta = dropDay - startDay` and keeps the day-granularity
duration; `id`, `name`, `category` and `createdAt` are unchanged.  For a
task whose end carries an earlier time-of-day than its start, the committed
range is `(dropDay, dropDay + differenceInDays(end, start))`, which shortens
the day-granularity duration by one. -/
theorem C5_move_shifts_by_day_delta (task : Task) (dropDate : Int)
    (h1 : startOfDay task.startDate = task.startDate)
    (h2 : startOfDay task.endDate = task.endDate) :
    (moveTask task dropDate).startDate = startOfDay dropDate ∧
    dayIndex (moveTask task dropDate).startDate =
      dayIndex task.startDate + (dayIndex dropDate - dayIndex task.startDate) ∧
    dayIndex (moveTask task dropDate).endDate =
      dayIndex task.endDate + (dayIndex dropDate - dayIndex task.startDate) ∧
    dayIndex (moveTask task dropDate).endDate - dayIndex (moveTask task dropDate).startDate =
      dayIndex task.endDate - dayIndex task.startDate ∧
    (moveTask task dropDate).id = task.id ∧
    (moveTask task dropDate).name = task.name ∧
    (moveTask task dropDate).category = task.category ∧
    (moveTask task dropDate).createdAt = task.createdAt := by
  have hdur : differenceInDays task.endDate task.startDate =
      dayIndex task.endDate - dayIndex task.startDate := by
    unfold differenceInDays
    conv_lhs => rw [← h2, ← h1, startOfDay_eq_mul, startOfDay_eq_mul]
    rw [← Int.mul_sub, Int.mul_comm]
    exact tdiv_msPerDay_mul _
  unfold moveTask
  dsimp only
  rw [hdur]
  refine ⟨rfl, ?_, ?_, ?_, rfl, rfl, rfl, rfl⟩
  · rw [dayIndex_startOfDay]
    omega
  · rw [dayIndex_startOfDay, dayIndex_addDays]
    omega
  · rw [dayIndex_startOfDay, dayIndex_startOfDay, dayIndex_addDays]
    omega

/-- Witness for `C5_move_shifts_by_day_delta`: the day-aligned task spanning
days 1..3 dropped on day 5. -/
theorem C5_move_shifts_by_day_delta_witness :
    (moveTask sampleTaskC4 (5 * msPerDay)).startDate = startOfDay (5 * msPerDay) ∧
    dayIndex (moveTask sampleTaskC4 (5 * msPerDay)).startDate =
      dayIndex sampleTaskC4.startDate +
        (dayIndex (5 * msPerDay) - dayIndex sampleTaskC4.startDate) ∧
    dayIndex (moveTask sampleTaskC4 (5 * msPerDay)).endDate =
      dayIndex sampleTaskC4.endDate +
        (dayIndex (5 * msPerDay) - dayIndex sampleTaskC4.startDate) ∧
    dayIndex (moveTask sampleTaskC4 (5 * msPerDay)).endDate -
        dayIndex (moveTask sampleTaskC4 (5 * msPerDay)).startDate =
      dayIndex sampleTaskC4.endDate - dayIndex sampleTaskC4.startDate ∧
    (moveTask sampleTaskC4 (5 * msPerDay)).id = sampleTaskC4.id ∧
    (moveTask sampleTaskC4 (5 * msPerDay)).name = sampleTaskC4.name ∧
    (moveTask sampleTaskC4 (5 * msPerDay)).category = sampleTaskC4.category ∧
    (moveTask sampleTaskC4 (5 * msPerDay)).createdAt = sampleTaskC4.createdAt :=
  C5_move_shifts_by_day_delta sampleTaskC4 (5 * msPerDay) (by decide) (by decide)

/-- The sample task for the C6 counterexample: it starts at midnight of day
0 and ends one millisecond after midnight of day 3. -/
def sampleTaskC6 : Task :=
  { id := "1", name := "a", category := .todo,
    startDate := 0, endDate := 3 * msPerDay + 1, createdAt := 0 }

/-- Claim C6 (corrected): the claim as stated is false.  Dragging the start
edge of `sampleTaskC6` onto day 3 (the day of its end) passes the source's
millisecond-level guard `newStart >= newEnd` (midnight of day 3 is still
before `3 days + 1ms`), so no clamping happens and the committed range lasts
one millisecond: the same calendar day at day granularity, not `>= 1 day`. -/
theorem C6_resize_counterexample :
    (resizeTask sampleTaskC6 .startEdge (3 * msPerDay)).endDate -
        (resizeTask sampleTaskC6 .startEdge (3 * msPerDay)).startDate < msPerDay ∧
    dayIndex (resizeTask sampleTaskC6 .startEdge (3 * msPerDay)).endDate =
      dayIndex (resizeTask sampleTaskC6 .startEdge (3 * msPerDay)).startDate := by
  constructor <;> decide

/-- Claim C6 as amended: for a task whose dates are day-aligned, a resize
step always commits a range of duration at least one full day (clamping to
exactly one day when the dragged edge crosses the other), and the edge not
being dragged keeps exactly its original date; for an end date carrying a
time-of-day component, the millisecond-level guard can let a same-day range
through. -/
theorem C6_resize_min_duration (task : Task) (mode : ResizeEdge) (targetDate : Int)
    (h1 : startOfDay task.startDate = task.startDate)
    (h2 : startOfDay task.endDate = task.endDate) :
    msPerDay ≤ (resizeTask task mode targetDate).endDate -
        (resizeTask task mode targetDate).startDate ∧
    1 ≤ dayIndex (resizeTask task mode targetDate).endDate -
        dayIndex (resizeTask task mode targetDate).startDate ∧
    (mode = .startEdge → (resizeTask task mode targetDate).endDate = task.endDate) ∧
    (mode = .endEdge → (resizeTask task mode targetDate).startDate = task.startDate) := by
  cases mode
  · unfold resizeTask handleResizeMove
    dsimp only
    split_ifs with h
    · refine ⟨?_, ?_, ?_, ?_⟩
      · dsimp only
        simp only [startOfDay, addDays, dayIndex, msPerDay] at h1 h2 h ⊢
        omega
      · dsimp only
        simp only [startOfDay, addDays, dayIndex, msPerDay] at h1 h2 h ⊢
        omega
      · intro hcon
        rfl
      · intro hcon
        cases hcon
    · refine ⟨?_, ?_, ?_, ?_⟩
      · dsimp only
        simp only [startOfDay, addDays, dayIndex, msPerDay] at h1 h2 h ⊢
        omega
      · dsimp only
        simp only [startOfDay, addDays, dayIndex, msPerDay] at h1 h2 h ⊢
        omega
      · intro hcon
        rfl
      · intro hcon
        cases hcon
  · unfold resizeTask handleResizeMove
    dsimp only
    split_ifs with h
    · refine ⟨?_, ?_, ?_, ?_⟩
      · dsimp only
        simp only [startOfDay, addDays, dayIndex, msPerDay] at h1 h2 h ⊢
        omega
      · dsimp only
        simp only [startOfDay, addDays, dayIndex, msPerDay] at h1 h2 h ⊢
        omega
      · intro hcon
        cases hcon
      · intro hcon
        rfl
    · refine ⟨?_, ?_, ?_, ?_⟩
      · dsimp only
        simp only [startOfDay, addDays, dayIndex, msPerDay] at h1 h2 h ⊢
        omega
      · dsimp only
        simp only [startOfDay, addDays, dayIndex, msPerDay] at h1 h2 h ⊢
        omega
      · intro hcon
        cases hcon
      · intro hcon
        rfl

/-- Witness for `C6_resize_min_duration`: the day-aligned task spanning days
1..3, dragging the start edge onto day 5 (which clamps to day 2). -/
theorem C6_resize_min_duration_witness :
    msPerDay ≤ (resizeTask sampleTaskC4 .startEdge (5 * msPerDay)).endDate -
        (resizeTask sampleTaskC4 .startEdge (5 * msPerDay)).startDate ∧
    1 ≤ dayIndex (resizeTask sampleTaskC4 .startEdge (5 * msPerDay)).endDate -
        dayIndex (resizeTask sampleTaskC4 .startEdge (5 * msPerDay)).startDate ∧
    (ResizeEdge.startEdge = ResizeEdge.startEdge →
      (resizeTask sampleTaskC4 .startEdge (5 * msPerDay)).endDate = sampleTaskC4.endDate) ∧
    (ResizeEdge.startEdge = ResizeEdge.endEdge →
      (resizeTask sampleTaskC4 .startEdge (5 * msPerDay)).startDate = sampleTaskC4.startDate) :=
  C6_resize_min_duration sampleTaskC4 .startEdge (5 * msPerDay) (by decide) (by decide)

/- The store claims (C9, C10). -/

/-- A stored task with id `"a"`, used in concrete store states. -/
def sampleTask9a : Task :=
  { id := "a", name := "x", category := .todo, startDate := 0, endDate := 0, createdAt := 0 }

/-- A task payload with id `"b"`, matching nothing in `sampleState9`. -/
def sampleTask9b : Task :=
  { id := "b", name := "y", category := .review,
    startDate := msPerDay, endDate := 2 * msPerDay, createdAt := 0 }

/-- A concrete store state holding one task, used by witnesses. -/
def sampleState9 : CalendarState :=
  { tasks := [sampleTask9a],
    filters := { categories := [], duration := none, searchQuery := "" },
    modal := { isOpen := false, task := none, mode := .create },
    dragSelection := { startDate := none, endDate := none, isSelecting := false },
    currentMonth := 0 }

/-- Claim C9 (confirmed): `UPDATE_TASK` with an id matching no stored task
leaves the task list unchanged (the reducer's `map` touches nothing, appends
nothing, and, being a total function, cannot throw); `DELETE_TASK` of an
unknown id likewise leaves the list unchanged; and `UPDATE_TASK` never
changes the number of tasks. -/
theorem C9_store_unknown_id_noop :
    (∀ (s : CalendarState) (p : Task),
      (∀ t ∈ s.tasks, t.id ≠ p.id) →
      (calendarReducer s (.updateTask p)).tasks = s.tasks) ∧
    (∀ (s : CalendarState) (i : String),
      (∀ t ∈ s.tasks, t.id ≠ i) →
      (calendarReducer s (.deleteTask i)).tasks = s.tasks) ∧
    (∀ (s : CalendarState) (p : Task),
      ((calendarReducer s (.updateTask p)).tasks).length = s.tasks.length) := by
  refine ⟨?_, ?_, ?_⟩
  · intro s p h
    unfold calendarReducer
    dsimp only
    have hcg : s.tasks.map (fun t => if t.id = p.id then p else t) = s.tasks.map id :=
      List.map_congr_left fun t ht => if_neg (h t ht)
    rw [hcg, List.map_id]
  · intro s i h
    unfold calendarReducer
    dsimp only
    apply List.filter_eq_self.mpr
    intro t ht
    simpa using h t ht
  · intro s p
    unfold calendarReducer
    dsimp only
    exact List.length_map _ _

/-- Witness for `C9_store_unknown_id_noop` on the one-task store
`sampleState9` with the unknown ids `"b"` and `"z"`. -/
theorem C9_store_unknown_id_noop_witness :
    (calendarReducer sampleState9 (.updateTask sampleTask9b)).tasks = sampleState9.tasks ∧
    (calendarReducer sampleState9 (.deleteTask "z")).tasks = sampleState9.tasks ∧
    ((calendarReducer sampleState9 (.updateTask sampleTask9b)).tasks).length =
      sampleState9.tasks.length :=
  ⟨C9_store_unknown_id_noop.1 sampleState9 sampleTask9b (by decide),
   C9_store_unknown_id_noop.2.1 sampleState9 "z" (by decide),
   C9_store_unknown_id_noop.2.2 sampleState9 sampleTask9b⟩

/-- Claim C10 (confirmed): `ADD_TASK` appends its payload verbatim to the
end of the task list — with no normalization, validation or id-uniqueness
check, since the payload is universally quantified (an inverted range or an
empty name is stored as-is) — and leaves `filters`, `modal`,
`dragSelection` and `currentMonth` unchanged. -/
theorem C10_addTask_appends_verbatim (s : CalendarState) (p : Task) :
    (calendarReducer s (.addTask p)).tasks = s.tasks ++ [p] ∧
    (calendarReducer s (.addTask p)).filters = s.filters ∧
    (calendarReducer s (.addTask p)).modal = s.modal ∧
    (calendarReducer s (.addTask p)).dragSelection = s.dragSelection ∧
    (calendarReducer s (.addTask p)).currentMonth = s.currentMonth :=
  ⟨rfl, rfl, rfl, rfl, rfl⟩

/- Claim C1: the mutations that can reach the store, composed with the
reducer. -/

/-- `initialState` from `src/context/CalendarContext.tsx`, with the impure
`new Date()` as the `now` parameter. -/
def initialState (now : Int) : CalendarState :=
  { tasks := [],
    filters := { categories := [], duration := none, searchQuery := "" },
    modal := { isOpen := false, task := none, mode := .create },
    dragSelection := { startDate := none, endDate := none, isSelecting := false },
    currentMonth := now }

/-- The store mutations reachable in the app: a create or edit form
submission, a move drop, a resize commit, or a delete. -/
inductive Mutation where
  | createForm (form : TaskFormData) (prefill : Option PartialTask) (now : Int) (newId : String)
  | editForm (form : TaskFormData) (task : Task)
  | moveGesture (task : Task) (dropDate : Int)
  | resizeGesture (task : Task) (mode : ResizeEdge) (target : Int)
  | deleteGesture (id : String)
  deriving Repr

/-- Run one caller-level mutation through the reducer, exactly as the
components dispatch: the form handlers dispatch `ADD_TASK`/`UPDATE_TASK`
when the trimmed name is non-empty (and nothing otherwise), the move and
resize gestures dispatch `UPDATE_TASK`, delete dispatches `DELETE_TASK`. -/
def applyMutation (s : CalendarState) : Mutation → CalendarState
  | .createForm f p now nid =>
    match handleSubmitCreate f p now nid with
    | some t => calendarReducer s (.addTask t)
    | none => s
  | .editForm f t =>
    match handleSubmitEdit f t with
    | some t' => calendarReducer s (.updateTask t')
    | none => s
  | .moveGesture t drop => calendarReducer s (.updateTask (moveTask t drop))
  | .resizeGesture t mode target => calendarReducer s (.updateTask (resizeTask t mode target))
  | .deleteGesture i => calendarReducer s (.deleteTask i)

/-- The claimed invariant for one task: `startDate <= endDate` at day
granularity. -/
def taskDayOrdered (t : Task) : Prop := dayIndex t.startDate ≤ dayIndex t.endDate

instance : DecidablePred taskDayOrdered := fun t =>
  inferInstanceAs (Decidable (dayIndex t.startDate ≤ dayIndex t.endDate))

/-- The claimed invariant for the whole store. -/
def tasksDayOrdered (l : List Task) : Prop := ∀ t ∈ l, taskDayOrdered t

instance (l : List Task) : Decidable (tasksDayOrdered l) :=
  inferInstanceAs (Decidable (∀ t ∈ l, taskDayOrdered t))

theorem dayIndex_mono {a b : Int} (h : a ≤ b) : dayIndex a ≤ dayIndex b :=
  Int.ediv_le_ediv msPerDay_pos h

/-- Moving a day-ordered task yields a day-ordered task: the truncated
duration is nonnegative whenever the day indices are ordered. -/
theorem moveTask_ordered (t : Task) (drop : Int) (h : taskDayOrdered t) :
    taskDayOrdered (moveTask t drop) := by
  unfold taskDayOrdered at h ⊢
  unfold moveTask
  dsimp only
  rw [dayIndex_startOfDay, dayIndex_startOfDay, dayIndex_addDays]
  have hd : 0 ≤ differenceInDays t.endDate t.startDate := by
    unfold differenceInDays
    apply tdiv_msPerDay_nonneg
    unfold dayIndex at h
    simp only [msPerDay] at h ⊢
    omega
  omega

/-- A resize commit always yields a day-ordered task, whatever the inputs. -/
theorem resizeTask_ordered (t : Task) (mode : ResizeEdge) (target : Int) :
    taskDayOrdered (resizeTask t mode target) := by
  unfold taskDayOrdered resizeTask handleResizeMove
  cases mode <;> dsimp only <;> split_ifs with h <;> dsimp only
  · rw [dayIndex_addDays]
    omega
  · have h' : startOfDay target ≤ t.endDate := le_of_lt (not_le.mp h)
    calc dayIndex (startOfDay target) = dayIndex target := dayIndex_startOfDay target
    _ = dayIndex (startOfDay target) := (dayIndex_startOfDay target).symm
    _ ≤ dayIndex t.endDate := dayIndex_mono h'
  · rw [dayIndex_addDays]
    omega
  · have h' : t.startDate ≤ startOfDay target := le_of_lt (not_le.mp h)
    exact dayIndex_mono h'

/-- Replacing the matching task by a day-ordered payload keeps the list
day-ordered. -/
theorem tasksDayOrdered_update (l : List Task) (p : Task)
    (hl : tasksDayOrdered l) (hp : taskDayOrdered p) :
    tasksDayOrdered (l.map fun t => if t.id = p.id then p else t) := by
  intro x hx
  obtain ⟨t, ht, rfl⟩ := List.mem_map.mp hx
  by_cases hid : t.id = p.id
  · rw [if_pos hid]
    exact hp
  · rw [if_neg hid]
    exact hl t ht

/-- Does a mutation's own input data respect the ordering discipline the
spec demands of callers?  The gestures need nothing beyond a day-ordered
source task (resize and delete nothing at all); the form paths need the
dates they will commit — entered field, else modal prefill, else `now` —
to be ordered, because `handleSubmit` commits them verbatim. -/
def mutationOk : Mutation → Prop
  | .createForm f p now _ =>
    dayIndex (f.startDate.getD ((p.bind PartialTask.startDate).getD now)) ≤
      dayIndex (f.endDate.getD ((p.bind PartialTask.endDate).getD now))
  | .editForm f t =>
    dayIndex (f.startDate.getD t.startDate) ≤ dayIndex (f.endDate.getD t.endDate)
  | .moveGesture t _ => taskDayOrdered t
  | .resizeGesture _ _ _ => True
  | .deleteGesture _ => True

instance : DecidablePred mutationOk := fun m => by
  unfold mutationOk
  cases m <;> infer_instance

/-- The form data of the C1 counterexample: a valid name but an end date two
days before the start date. -/
def sampleFormC1 : TaskFormData :=
  { name := "a", category := .todo,
    startDate := some (5 * msPerDay), endDate := some (3 * msPerDay) }

/-- The C1 counterexample mutation: submitting the creation form with the
inverted dates of `sampleFormC1`. -/
def sampleMutationC1 : Mutation := .createForm sampleFormC1 none 0 "1"

/-- Claim C1 (corrected): the claim as stated is false.  Starting from the
empty initial store (where the invariant holds), one create-form submission
with an end date before its start date commits a task whose stored range is
inverted: `handleSubmit` performs no swap before dispatching `ADD_TASK`, and
the reducer stores the payload verbatim. -/
theorem C1_invariant_counterexample :
    tasksDayOrdered (initialState 0).tasks ∧
    ¬ tasksDayOrdered (applyMutation (initialState 0) sampleMutationC1).tasks := by
  constructor <;> decide

/-- Claim C1 as amended: the `startDate <= endDate` (day granularity)
invariant is preserved by every mutation whose own inputs are ordered:
delete and resize unconditionally, move when the moved task was ordered,
and the form paths exactly when the dates they commit (entered field, else
prefill, else `now`) are ordered — the form swaps nothing, so an inverted
submission stores an inverted range. -/
theorem C1_store_invariant (s : CalendarState) (m : Mutation)
    (hs : tasksDayOrdered s.tasks) (hm : mutationOk m) :
    tasksDayOrdered (applyMutation s m).tasks := by
  cases m with
  | createForm f p now nid =>
    dsimp only [mutationOk] at hm
    cases hmatch : handleSubmitCreate f p now nid with
    | none =>
      dsimp only [applyMutation]
      rw [hmatch]
      exact hs
    | some t =>
      have hto : taskDayOrdered t := by
        unfold handleSubmitCreate at hmatch
        split_ifs at hmatch with hname
        have hinj := Option.some.inj hmatch
        rw [← hinj]
        exact hm
      dsimp only [applyMutation]
      rw [hmatch]
      dsimp only [calendarReducer]
      intro x hx
      rcases List.mem_append.mp hx with hx | hx
      · exact hs x hx
      · rw [List.mem_singleton.mp hx]
        exact hto
  | editForm f t =>
    dsimp only [mutationOk] at hm
    cases hmatch : handleSubmitEdit f t with
    | none =>
      dsimp only [applyMutation]
      rw [hmatch]
      exact hs
    | some t' =>
      have hto : taskDayOrdered t' := by
        unfold handleSubmitEdit at hmatch
        split_ifs at hmatch with hname
        have hinj := Option.some.inj hmatch
        rw [← hinj]
        exact hm
      dsimp only [applyMutation]
      rw [hmatch]
      dsimp only [calendarReducer]
      exact tasksDayOrdered_update s.tasks t' hs hto
  | moveGesture t drop =>
    dsimp only [mutationOk] at hm
    dsimp only [applyMutation, calendarReducer]
    exact tasksDayOrdered_update s.tasks _ hs (moveTask_ordered t drop hm)
  | resizeGesture t mode target =>
    dsimp only [applyMutation, calendarReducer]
    exact tasksDayOrdered_update s.tasks _ hs (resizeTask_ordered t mode target)
  | deleteGesture i =>
    dsimp only [applyMutation, calendarReducer]
    intro x hx
    exact hs x (List.mem_of_mem_filter hx)

/-- Witness for `C1_store_invariant`: resizing the end edge of the stored
task of `sampleState9` onto day 4 keeps the store's invariant. -/
theorem C1_store_invariant_witness :
    tasksDayOrdered sampleState9.tasks ∧
    tasksDayOrdered
      (applyMutation sampleState9 (.resizeGesture sampleTask9a .endEdge (4 * msPerDay))).tasks :=
  ⟨by decide,
   C1_store_invariant sampleState9 (.resizeGesture sampleTask9a .endEdge (4 * msPerDay))
     (by decide) (by decide)⟩

end Calendar
